import Mathlib

/-!
Verification development for the Wikipedia category word-frequency analyzer
(`wiki_category_analysis.py`, `app.py`, `templates/color_palette.py`).

The Python source is shallowly embedded: pure functions become Lean
functions, the network and the on-disk cache become explicit oracles and
state threaded through `analyze_category`, and machine-level notions
(MD5, UTF-8 bytes) are implemented over `Nat` with explicit reductions
modulo `2 ^ 32`.
-/

set_option maxRecDepth 100000

namespace WikiAnalysis

/-! ### MD5 (model of Python `hashlib.md5(...).hexdigest()`)

`get_cache_path` hashes the category name with MD5.  The full MD5
algorithm (RFC 1321) is implemented here over lists of byte values
(`Nat < 256`), operating on 32-bit words represented as `Nat` reduced
modulo `2 ^ 32`. -/

/-- The 32-bit modulus `2 ^ 32`. -/
def m32 : Nat := 4294967296

/-- 32-bit addition. -/
def add32 (a b : Nat) : Nat := (a + b) % m32

/-- 32-bit bitwise complement (for `x < 2 ^ 32`). -/
def not32 (x : Nat) : Nat := x ^^^ 4294967295

/-- 32-bit left rotation by `s` bits (for `x < 2 ^ 32`, `s ≤ 32`). -/
def rotl32 (x s : Nat) : Nat := ((x <<< s) % m32) ||| (x >>> (32 - s))

/-- MD5 round function F. -/
def mdF (b c d : Nat) : Nat := (b &&& c) ||| (not32 b &&& d)

/-- MD5 round function G. -/
def mdG (b c d : Nat) : Nat := (b &&& d) ||| (c &&& not32 d)

/-- MD5 round function H. -/
def mdH (b c d : Nat) : Nat := b ^^^ c ^^^ d

/-- MD5 round function I. -/
def mdI (b c d : Nat) : Nat := c ^^^ (b ||| not32 d)

/-- The 64 MD5 sine-derived constants (RFC 1321, `T[i] = floor(2^32 * abs(sin(i+1)))`). -/
def mdK : List Nat :=
  [0xd76aa478, 0xe8c7b756, 0x242070db, 0xc1bdceee,
   0xf57c0faf, 0x4787c62a, 0xa8304613, 0xfd469501,
   0x698098d8, 0x8b44f7af, 0xffff5bb1, 0x895cd7be,
   0x6b901122, 0xfd987193, 0xa679438e, 0x49b40821,
   0xf61e2562, 0xc040b340, 0x265e5a51, 0xe9b6c7aa,
   0xd62f105d, 0x02441453, 0xd8a1e681, 0xe7d3fbc8,
   0x21e1cde6, 0xc33707d6, 0xf4d50d87, 0x455a14ed,
   0xa9e3e905, 0xfcefa3f8, 0x676f02d9, 0x8d2a4c8a,
   0xfffa3942, 0x8771f681, 0x6d9d6122, 0xfde5380c,
   0xa4beea44, 0x4bdecfa9, 0xf6bb4b60, 0xbebfbc70,
   0x289b7ec6, 0xeaa127fa, 0xd4ef3085, 0x04881d05,
   0xd9d4d039, 0xe6db99e5, 0x1fa27cf8, 0xc4ac5665,
   0xf4292244, 0x432aff97, 0xab9423a7, 0xfc93a039,
   0x655b59c3, 0x8f0ccc92, 0xffeff47d, 0x85845dd1,
   0x6fa87e4f, 0xfe2ce6e0, 0xa3014314, 0x4e0811a1,
   0xf7537e82, 0xbd3af235, 0x2ad7d2bb, 0xeb86d391]

/-- The 64 MD5 per-round left-rotation amounts. -/
def mdS : List Nat :=
  [7, 12, 17, 22, 7, 12, 17, 22, 7, 12, 17, 22, 7, 12, 17, 22,
   5, 9, 14, 20, 5, 9, 14, 20, 5, 9, 14, 20, 5, 9, 14, 20,
   4, 11, 16, 23, 4, 11, 16, 23, 4, 11, 16, 23, 4, 11, 16, 23,
   6, 10, 15, 21, 6, 10, 15, 21, 6, 10, 15, 21, 6, 10, 15, 21]

/-- UTF-8 encoding of one character as a list of byte values
(model of Python `str.encode()` per character). -/
def utf8Char (c : Char) : List Nat :=
  let n := c.toNat
  if n < 0x80 then [n]
  else if n < 0x800 then
    [0xC0 ||| (n >>> 6), 0x80 ||| (n &&& 0x3F)]
  else if n < 0x10000 then
    [0xE0 ||| (n >>> 12), 0x80 ||| ((n >>> 6) &&& 0x3F), 0x80 ||| (n &&& 0x3F)]
  else
    [0xF0 ||| (n >>> 18), 0x80 ||| ((n >>> 12) &&& 0x3F),
     0x80 ||| ((n >>> 6) &&& 0x3F), 0x80 ||| (n &&& 0x3F)]

/-- UTF-8 encoding of a string as a list of byte values
(model of Python `str.encode()`). -/
def utf8Encode (s : String) : List Nat :=
  s.data.foldr (fun c acc => utf8Char c ++ acc) []

/-- MD5 padding: append `0x80`, then zero bytes up to 56 mod 64, then the
original bit length as 8 little-endian bytes. -/
def md5Pad (msg : List Nat) : List Nat :=
  let len := msg.length
  let zeros := List.replicate ((119 - (len % 64)) % 64) 0
  let bitLen := (len * 8) % (2 ^ 64)
  let lenBytes := (List.range 8).map (fun i => (bitLen >>> (8 * i)) % 256)
  msg ++ (128 :: zeros) ++ lenBytes

/-- Group a byte list into 32-bit little-endian words. -/
def bytesToWords : List Nat → List Nat
  | b0 :: b1 :: b2 :: b3 :: rest =>
    (b0 + (b1 <<< 8) + (b2 <<< 16) + (b3 <<< 24)) :: bytesToWords rest
  | _ => []

/-- Group a word list into 16-word blocks (fuel-driven so that the kernel
can evaluate it). -/
def toBlocksAux : Nat → List Nat → List (List Nat)
  | 0, _ => []
  | _, [] => []
  | fuel + 1, ws => ws.take 16 :: toBlocksAux fuel (ws.drop 16)

/-- Group a word list into 16-word blocks. -/
def toBlocks (ws : List Nat) : List (List Nat) := toBlocksAux ws.length ws

/-- One of the 64 MD5 rounds on the state `(a, b, c, d)` with message block `M`. -/
def md5Step (M : List Nat) (st : Nat × Nat × Nat × Nat) (i : Nat) :
    Nat × Nat × Nat × Nat :=
  let (a, b, c, d) := st
  let f :=
    if i < 16 then mdF b c d
    else if i < 32 then mdG b c d
    else if i < 48 then mdH b c d
    else mdI b c d
  let g :=
    if i < 16 then i
    else if i < 32 then (5 * i + 1) % 16
    else if i < 48 then (3 * i + 5) % 16
    else (7 * i) % 16
  let tmp := add32 (add32 (add32 a f) (mdK.getD i 0)) (M.getD g 0)
  (d, add32 b (rotl32 tmp (mdS.getD i 0)), b, c)

/-- Process one 512-bit block: 64 rounds, then add into the running state. -/
def md5Block (st : Nat × Nat × Nat × Nat) (M : List Nat) :
    Nat × Nat × Nat × Nat :=
  let (a, b, c, d) := (List.range 64).foldl (md5Step M) st
  (add32 st.1 a, add32 st.2.1 b, add32 st.2.2.1 c, add32 st.2.2.2 d)

/-- MD5 digest of a byte list, as 16 little-endian bytes. -/
def md5Digest (msg : List Nat) : List Nat :=
  let blocks := toBlocks (bytesToWords (md5Pad msg))
  let st := blocks.foldl md5Block (0x67452301, 0xefcdab89, 0x98badcfe, 0x10325476)
  [st.1, st.2.1, st.2.2.1, st.2.2.2].foldr
    (fun w acc => ((List.range 4).map fun i => (w >>> (8 * i)) % 256) ++ acc) []

/-- Lowercase hexadecimal digit for `n < 16`. -/
def hexChar (n : Nat) : Char :=
  if n < 10 then Char.ofNat (48 + n) else Char.ofNat (87 + n)

/-- Two lowercase hex digits of a byte. -/
def byteHex (b : Nat) : List Char := [hexChar (b / 16), hexChar (b % 16)]

/-- Model of Python `hashlib.md5(s.encode()).hexdigest()`. -/
def md5Hex (s : String) : String :=
  String.mk ((md5Digest (utf8Encode s)).foldr (fun b acc => byteHex b ++ acc) [])

/-! ### Cache paths and category normalization -/

/-- Embedding of `get_cache_path`: the path is `CACHE_DIR` joined with the
MD5 hex digest of the category name and ".json".  `CACHE_DIR` is an
absolute directory constant; it is modeled by the fixed prefix "cache/". -/
def get_cache_path (category_name : String) : String :=
  "cache/" ++ md5Hex category_name ++ ".json"

/-- The apostrophe character (code point 39), used to spell tokens that
contain one. -/
def quoteS : String := String.singleton (Char.ofNat 39)

/-- Embedding of the category-name formatting step at the top of
`get_pages_in_category`: prefix "Category:" when absent. -/
def normalizeCategory (category_name : String) : String :=
  if ("Category:").data.isPrefixOf category_name.data then category_name
  else "Category:" ++ category_name

/-! ### Counters

Python `collections.Counter` as the script uses it: string keys mapped to
counts, keys kept in first-seen insertion order; `update` adds counts
key-wise, appending unseen keys. -/

/-- A frequency table: insertion-ordered association list. -/
abbrev Counter := List (String × Nat)

/-- Count held by a counter for a word (0 when absent);
embedding of `Counter.__getitem__` / dict lookup. -/
def Counter.count : Counter → String → Nat
  | [], _ => 0
  | (k, n) :: rest, w => if w = k then n else Counter.count rest w

/-- Add `n` to key `k`: in-place when the key exists (keeping its
position), appended at the end otherwise. -/
def counterAdd : Counter → String → Nat → Counter
  | [], k, n => [(k, n)]
  | (k2, m) :: rest, k, n =>
    if k = k2 then (k2, m + n) :: rest else (k2, m) :: counterAdd rest k n

/-- Embedding of `Counter.update(other)`: add the counts of `other`
key-wise, in the order of `other`. -/
def Counter.update (c other : Counter) : Counter :=
  other.foldl (fun acc kv => counterAdd acc kv.1 kv.2) c

/-- Embedding of `Counter(list_of_tokens)`: count occurrences, keys in
first-seen order. -/
def counterOfTokens (tokens : List String) : Counter :=
  tokens.foldl (fun acc w => counterAdd acc w 1) []

/-! ### Text analysis (`analyze_text`) -/

/-- The Python `string.punctuation` constant (32 ASCII characters). -/
def string_punctuation : String :=
  "!\"#$%&" ++ quoteS ++ "()*+,-./:;<=>?@[\\]^_`" ++ "\x7b|\x7d~"

/-- Python substring membership `needle in haystack` on strings. -/
def strMem (needle haystack : String) : Bool :=
  (List.range (haystack.data.length + 1)).any fun i =>
    needle.data.isPrefixOf (haystack.data.drop i)

/-- Python `str.isdigit` (restricted to ASCII digits, which is exact for
the ASCII inputs used here): nonempty and all characters are digits. -/
def pyIsDigit (s : String) : Bool :=
  !s.data.isEmpty && s.data.all Char.isDigit

/-- Python `str.lower` (character-wise; exact on ASCII). -/
def lowerStr (s : String) : String := String.mk (s.data.map Char.toLower)

/-- Whitespace splitter: accumulate non-whitespace runs. -/
def splitWsAux : List Char → List Char → List String
  | [], acc => if acc.isEmpty then [] else [String.mk acc.reverse]
  | c :: cs, acc =>
    if c.isWhitespace then
      (if acc.isEmpty then [] else [String.mk acc.reverse]) ++ splitWsAux cs []
    else splitWsAux cs (c :: acc)

/-- Model of NLTK `word_tokenize` (external library), restricted to texts
whose tokens are already whitespace-delimited: it splits on whitespace.
On such texts this agrees with the NLTK treebank tokenizer; in particular
NLTK emits the ellipsis "..." as a single token (its tokenizer first
rewrites "..." to a space-delimited " ... "), which the model reproduces
on the whitespace-delimited inputs used below. -/
def word_tokenize (text : String) : List String :=
  splitWsAux text.data []

/-- The NLTK English stopword corpus (external resource loaded by
`stopwords.words(...)` for English), modeled verbatim (179 entries). -/
def english_stopwords : List String :=
  ["i", "me", "my", "myself", "we", "our", "ours", "ourselves",
   "you", "you" ++ quoteS ++ "re", "you" ++ quoteS ++ "ve",
   "you" ++ quoteS ++ "ll", "you" ++ quoteS ++ "d", "your", "yours",
   "yourself", "yourselves", "he", "him", "his", "himself",
   "she", "she" ++ quoteS ++ "s", "her", "hers", "herself",
   "it", "it" ++ quoteS ++ "s", "its", "itself",
   "they", "them", "their", "theirs", "themselves",
   "what", "which", "who", "whom", "this", "that",
   "that" ++ quoteS ++ "ll", "these", "those",
   "am", "is", "are", "was", "were", "be", "been", "being",
   "have", "has", "had", "having", "do", "does", "did", "doing",
   "a", "an", "the", "and", "but", "if", "or", "because", "as",
   "until", "while", "of", "at", "by", "for", "with", "about",
   "against", "between", "into", "through", "during", "before",
   "after", "above", "below", "to", "from", "up", "down", "in",
   "out", "on", "off", "over", "under", "again", "further", "then",
   "once", "here", "there", "when", "where", "why", "how", "all",
   "any", "both", "each", "few", "more", "most", "other", "some",
   "such", "no", "nor", "not", "only", "own", "same", "so", "than",
   "too", "very", "s", "t", "can", "will", "just",
   "don", "don" ++ quoteS ++ "t", "should", "should" ++ quoteS ++ "ve",
   "now", "d", "ll", "m", "o", "re", "ve", "y",
   "ain", "aren", "aren" ++ quoteS ++ "t", "couldn",
   "couldn" ++ quoteS ++ "t", "didn", "didn" ++ quoteS ++ "t",
   "doesn", "doesn" ++ quoteS ++ "t", "hadn", "hadn" ++ quoteS ++ "t",
   "hasn", "hasn" ++ quoteS ++ "t", "haven", "haven" ++ quoteS ++ "t",
   "isn", "isn" ++ quoteS ++ "t", "ma", "mightn",
   "mightn" ++ quoteS ++ "t", "mustn", "mustn" ++ quoteS ++ "t",
   "needn", "needn" ++ quoteS ++ "t", "shan", "shan" ++ quoteS ++ "t",
   "shouldn", "shouldn" ++ quoteS ++ "t", "wasn",
   "wasn" ++ quoteS ++ "t", "weren", "weren" ++ quoteS ++ "t",
   "won", "won" ++ quoteS ++ "t", "wouldn", "wouldn" ++ quoteS ++ "t"]

/-- The fixed Wikipedia-specific exclusion list added to the stopword set
in `analyze_text`. -/
def wiki_common_words : List String :=
  ["cite", "reference", "http", "https", "www", "com", "org",
   "retrieved", "isbn", "doi", "page", "pages", "website", "link"]

/-- The combined stopword set used by `analyze_text`
(`stop_words.update(wiki_common_words)`). -/
def stop_words : List String := english_stopwords ++ wiki_common_words

/-- Embedding of `analyze_text`: lowercase, tokenize, drop tokens that
are Python-substrings of `string.punctuation` or digit strings, then
drop tokens of length ≤ 2 or in the stopword set, and count. -/
def analyze_text (text : String) : Counter :=
  let tokens := word_tokenize (lowerStr text)
  let tokens := tokens.filter fun word =>
    !strMem word string_punctuation && !pyIsDigit word
  let meaningful_words := tokens.filter fun word =>
    word.length > 2 && !stop_words.contains word
  counterOfTokens meaningful_words

/-- A string made only of punctuation characters (the notion of a
"punctuation-only" key). -/
def allPunctChars (s : String) : Bool :=
  !s.data.isEmpty && s.data.all fun c => string_punctuation.data.contains c

/-! ### The remote API and cache as explicit oracles

The successive responses of the category-members endpoint become a
scripted list; page extracts become a function from title to fallible
text; the cache directory becomes a map from file path to entry; an
uncaught Python exception becomes a `PyError` value. -/

/-- Abstraction of an uncaught Python exception propagating out of the
analysis pipeline: `netError` abstracts the exceptions of the HTTP/JSON
layer (`requests` exceptions, JSON decode errors) raised during listing
or fetching — the RetrievalError of the spec; `decodeError` abstracts
the exceptions that escape the except clause of `load_from_cache`
(`UnicodeDecodeError` from a cache file holding invalid UTF-8 bytes,
`TypeError` from `Counter(data)` on a non-iterable JSON scalar). -/
inductive PyError where
  | netError
  | decodeError
deriving DecidableEq

/-- One scripted response of the category-members endpoint: either a
member batch with an optional `cmcontinue` token, or a raised error. -/
inductive ApiResp where
  | ok (members : List String) (cmcontinue : Option String)
  | fail
deriving DecidableEq

/-- Does a response carry a continuation token? -/
def hasCont : ApiResp → Bool
  | .ok _ (some _) => true
  | _ => false

/-- Outcome of `get_pages_in_category`: the page titles (or the raised
error), the number of endpoint requests issued, and the number of
rate-limit sleeps performed. -/
structure ListOut where
  result : Except PyError (List String)
  requests : Nat
  sleeps : Nat

/-- Embedding of the pagination loop of `get_pages_in_category`: issue a
request (consuming the next scripted response); on success append the
member titles; while the response carries a `cmcontinue` token, sleep
once and continue; stop at the first response without one.  Running out
of scripted responses models a request the oracle cannot answer and is
treated as a raised error. -/
def get_pages_loop : List ApiResp → List String → ListOut
  | [], _ => ⟨.error .netError, 1, 0⟩
  | .fail :: _, _ => ⟨.error .netError, 1, 0⟩
  | .ok members cont :: rest, pages =>
    match cont with
    | none => ⟨.ok (pages ++ members), 1, 0⟩
    | some _ =>
      let o := get_pages_loop rest (pages ++ members)
      ⟨o.result, o.requests + 1, o.sleeps + 1⟩

/-- Embedding of `get_pages_in_category`.  The `cmtitle` query parameter
is `normalizeCategory category`; the response oracle abstracts over it,
so the category argument does not further affect the loop. -/
def get_pages_in_category (_category : String) (resps : List ApiResp) : ListOut :=
  get_pages_loop resps []

/-- A persisted cache file: a well-formed serialized table; a `corrupt`
file on which reading raises `json.JSONDecodeError` or `IOError`
(malformed JSON, unreadable file) — the exceptions the except clause of
`load_from_cache` names; or an `undecodable` file on which reading
raises an exception outside that clause (`UnicodeDecodeError` from
invalid UTF-8 bytes, `TypeError` from `Counter(data)` on a non-iterable
JSON scalar). -/
inductive CacheEntry where
  | ok (table : Counter)
  | corrupt
  | undecodable
deriving DecidableEq

/-- The cache directory: file path to entry (none when no file exists). -/
abbrev CacheMap := String → Option CacheEntry

/-- Embedding of `load_from_cache`: on a missing file return
`(Counter(), False)`; on a well-formed file return its table with `True`;
on a `corrupt` file the raised `JSONDecodeError`/`IOError` is caught by
`except (json.JSONDecodeError, IOError)`, logged, and falls through to
`(Counter(), False)`.  The clause catches nothing else: on an
`undecodable` file the raised `UnicodeDecodeError`/`TypeError` escapes
to the caller, modeled as `Except.error`. -/
def load_from_cache (category : String) (cache : CacheMap) :
    Except PyError (Counter × Bool) :=
  match cache (get_cache_path category) with
  | some (.ok data) => .ok (data, true)
  | some .corrupt => .ok ([], false)
  | some .undecodable => .error .decodeError
  | none => .ok ([], false)

/-- Embedding of `save_to_cache`: on a successful write the cache file at
the path of the category holds the table; an `IOError` is caught and logged,
leaving the cache unchanged.  `writeOk` scripts which of the two happens. -/
def save_to_cache (writeOk : Bool) (category : String) (word_count : Counter)
    (cache : CacheMap) : CacheMap :=
  if writeOk then
    fun p => if p = get_cache_path category then some (.ok word_count) else cache p
  else cache

/-- The world `analyze_category` runs against: the scripted listing
responses, the page-extract oracle (`get_page_content`), the cache
directory contents, and whether the cache write will succeed. -/
structure Env where
  listResps : List ApiResp
  content : String → Except PyError String
  cache : CacheMap
  writeOk : Bool

/-- Embedding of the per-page loop of `analyze_category`: for each title
fetch the content (a raised error propagates, aborting the loop), analyze
it, and merge into the running table; also counts the fetch calls made. -/
def process_pages (content : String → Except PyError String) :
    List String → Counter → Except PyError Counter × Nat
  | [], word_count => (.ok word_count, 0)
  | title :: rest, word_count =>
    match content title with
    | .error e => (.error e, 1)
    | .ok text =>
      let r := process_pages content rest (Counter.update word_count (analyze_text text))
      (r.1, r.2 + 1)

/-- Outcome of `analyze_category`: the returned table or the propagated
error, the final cache contents, and how many remote API calls were made. -/
structure RunOut where
  result : Except PyError Counter
  cache : CacheMap
  apiCalls : Nat

/-- Embedding of `analyze_category`: try the cache (an exception escaping
`load_from_cache` propagates, uncaught here as well); on a hit return
the cached table.  On a miss list the pages (errors propagate with the
cache untouched), process each page (errors propagate with the cache
untouched), then best-effort save and return the aggregated table. -/
def analyze_category (category : String) (env : Env) : RunOut :=
  match load_from_cache category env.cache with
  | .error e => ⟨.error e, env.cache, 0⟩
  | .ok lc =>
    if lc.2 then ⟨.ok lc.1, env.cache, 0⟩
    else
      let lo := get_pages_in_category category env.listResps
      match lo.result with
      | .error e => ⟨.error e, env.cache, lo.requests⟩
      | .ok pages =>
        let pr := process_pages env.content pages lc.1
        match pr.1 with
        | .error e => ⟨.error e, env.cache, lo.requests + pr.2⟩
        | .ok word_count =>
          ⟨.ok word_count, save_to_cache env.writeOk category word_count env.cache,
           lo.requests + pr.2⟩

/-! ### `most_common` (CPython `Counter.most_common`)

CPython documents `most_common(n)` as `sorted(items, reverse=True)[:n]`
by count with a stable sort, so equal counts keep first-seen insertion
order.  It is modeled by a stable insertion sort by descending count. -/

/-- Insert an entry into a descending-by-count list, after every entry
with a strictly larger count (so an earlier entry stays before equal
counts). -/
def insertDesc (x : String × Nat) : List (String × Nat) → List (String × Nat)
  | [] => [x]
  | y :: rest => if y.2 > x.2 then y :: insertDesc x rest else x :: y :: rest

/-- Stable sort by descending count. -/
def sortDesc (l : List (String × Nat)) : List (String × Nat) :=
  l.foldr insertDesc []

/-- Embedding of `Counter.most_common(n)`. -/
def Counter.most_common (c : Counter) (n : Nat) : List (String × Nat) :=
  (sortDesc c).take n

/-! ### Color palettes (`templates/color_palette.py`) -/

/-- A palette: its list of hex color strings. -/
structure ColorPalette where
  colors : List String
deriving DecidableEq

/-- The grayscale default colors of `ColorPalette.__init__`. -/
def default_colors : List String :=
  ["#000000", "#333333", "#666666", "#999999", "#CCCCCC", "#FFFFFF"]

/-- Embedding of `ColorPalette.__init__(colors)`: keep the given list
when it is truthy and has exactly 6 entries, otherwise fall back to the
grayscale default. -/
def ColorPalette.init (colors : Option (List String)) : ColorPalette :=
  match colors with
  | some cs => if cs.length = 6 then ⟨cs⟩ else ⟨default_colors⟩
  | none => ⟨default_colors⟩

/-- Embedding of `ColorPalette.get_color` (and `__getitem__`):
`self.colors[index % len(self.colors)]`; `none` models a raised
`IndexError`/`ZeroDivisionError`. -/
def ColorPalette.get_color (p : ColorPalette) (index : Nat) : Option String :=
  p.colors[index % p.colors.length]?

/-- `MaterialPalette()`. -/
def MaterialPalette : ColorPalette :=
  ColorPalette.init (some ["#F44336", "#2196F3", "#4CAF50", "#FFC107", "#9C27B0", "#FF9800"])

/-- `PastelPalette()`. -/
def PastelPalette : ColorPalette :=
  ColorPalette.init (some ["#FFB3BA", "#FFDFBA", "#FFFFBA", "#BAFFC9", "#BAE1FF", "#E2BAFF"])

/-- `VibrantPalette()`. -/
def VibrantPalette : ColorPalette :=
  ColorPalette.init (some ["#FF1744", "#00E676", "#2979FF", "#FFEA00", "#D500F9", "#FF9100"])

/-- `EarthtonePalette()`. -/
def EarthtonePalette : ColorPalette :=
  ColorPalette.init (some ["#795548", "#8D6E63", "#A1887F", "#BCAAA4", "#D7CCC8", "#EFEBE9"])

/-- `OceanPalette()`. -/
def OceanPalette : ColorPalette :=
  ColorPalette.init (some ["#01579B", "#0288D1", "#29B6F6", "#81D4FA", "#B3E5FC", "#E1F5FE"])

/-- `SunsetPalette()`. -/
def SunsetPalette : ColorPalette :=
  ColorPalette.init (some ["#FF6F00", "#FF9800", "#FFC107", "#FFEB3B", "#FFF176", "#FFF9C4"])

/-- The `PALETTES` dictionary. -/
def PALETTES : List (String × ColorPalette) :=
  [("default", ColorPalette.init none), ("material", MaterialPalette),
   ("pastel", PastelPalette), ("vibrant", VibrantPalette),
   ("earthy", EarthtonePalette), ("ocean", OceanPalette),
   ("sunset", SunsetPalette)]

/-- Dictionary lookup with default (Python `dict.get(k, dflt)`). -/
def dictGet (d : List (String × ColorPalette)) (k : String)
    (dflt : ColorPalette) : ColorPalette :=
  match d with
  | [] => dflt
  | (k2, v) :: rest => if k = k2 then v else dictGet rest k dflt

/-- Embedding of `get_palette(name)`:
`PALETTES.get(name.lower(), ColorPalette())`. -/
def get_palette (name : String) : ColorPalette :=
  dictGet PALETTES (lowerStr name) (ColorPalette.init none)

/-! ### Derived measures -/

/-- The contribution of a table `d` to the count of `w` under additive
merge: the sum of the counts of the entries of `d` keyed `w`. -/
def countWeight (d : Counter) (w : String) : Nat :=
  (d.map fun kv => if w = kv.1 then kv.2 else 0).sum

/-- The number of occurrences of `w` in a token list. -/
def countTok (l : List String) (w : String) : Nat :=
  (l.map fun t => if w = t then 1 else 0).sum

/-! ### Concrete scenario worlds used to instantiate the theorems -/

/-- A cache whose every file is corrupt in the caught way (malformed
JSON / unreadable). -/
def corruptCache : CacheMap := fun _ => some CacheEntry.corrupt

/-- A cache whose every file is corrupt in the uncaught way (invalid
UTF-8 bytes or a non-iterable JSON scalar). -/
def undecodableCache : CacheMap := fun _ => some CacheEntry.undecodable

/-- A world with a warm cache entry holding the table `dog ↦ 2` at every
path, and a remote API that would fail if contacted. -/
def envHit : Env :=
  ⟨[], fun _ => Except.error PyError.netError,
   fun _ => some (CacheEntry.ok [("dog", 2)]), true⟩

/-- A world with an empty cache whose first listing request fails. -/
def envFail : Env := ⟨[ApiResp.fail], fun _ => Except.ok "", fun _ => none, true⟩

/-- A world with an empty cache, a single listing page of two titles, and
the same fetched text for every title. -/
def envTwoPages : Env :=
  ⟨[ApiResp.ok ["P1", "P2"] none], fun _ => Except.ok "dog dog ran",
   fun _ => none, true⟩

/-- A scripted two-page pagination: the first response carries a
continuation token, the second does not. -/
def paginatedResps : List ApiResp :=
  [ApiResp.ok ["A"] (some "tok"), ApiResp.ok ["B"] none]

/-! ## Theorems -/

/-- Sanity anchor for the MD5 embedding: the RFC 1321 test digest of the
empty message. -/
theorem md5Hex_empty : md5Hex "" = "d41d8cd98f00b204e9800998ecf8427e" := by decide

/-- Adding `n` at key `k` raises the count of `w` by `n` exactly when
`w = k`. -/
theorem counterAdd_count (c : Counter) (k : String) (n : Nat) (w : String) :
    Counter.count (counterAdd c k n) w =
      Counter.count c w + (if w = k then n else 0) := by
  induction c with
  | nil =>
    by_cases hw : w = k <;> simp [counterAdd, Counter.count, hw]
  | cons kv tail ih =>
    obtain ⟨k2, m⟩ := kv
    by_cases hk : k = k2
    · subst hk
      by_cases hw : w = k <;> simp [counterAdd, Counter.count, hw]
    · by_cases hw : w = k2
      · subst hw
        have hwk : ¬(w = k) := fun h => hk h.symm
        simp [counterAdd, Counter.count, hk, hwk]
      · simp [counterAdd, Counter.count, hk, hw, ih]

/-- Folding `counterAdd` over a pair list adds its weight to every count. -/
theorem count_foldl_counterAdd (l : List (String × Nat)) (c : Counter) (w : String) :
    Counter.count (l.foldl (fun acc kv => counterAdd acc kv.1 kv.2) c) w =
      Counter.count c w + countWeight l w := by
  induction l generalizing c with
  | nil => simp [countWeight]
  | cons kv tail ih =>
    simp only [List.foldl_cons, countWeight, List.map_cons, List.sum_cons]
    rw [ih, counterAdd_count]
    simp only [countWeight]
    omega

/-- `Counter.update` adds counts key-wise. -/
theorem count_update (c d : Counter) (w : String) :
    Counter.count (Counter.update c d) w = Counter.count c w + countWeight d w :=
  count_foldl_counterAdd d c w

/-- Folding token counting adds the number of token occurrences. -/
theorem count_foldl_tokens (l : List String) (c : Counter) (w : String) :
    Counter.count (l.foldl (fun acc t => counterAdd acc t 1) c) w =
      Counter.count c w + countTok l w := by
  induction l generalizing c with
  | nil => simp [countTok]
  | cons t tail ih =>
    simp only [List.foldl_cons, countTok, List.map_cons, List.sum_cons]
    rw [ih, counterAdd_count]
    simp only [countTok]
    omega

/-- The count of `w` in a counted token list is its number of occurrences. -/
theorem count_counterOfTokens (l : List String) (w : String) :
    Counter.count (counterOfTokens l) w = countTok l w := by
  unfold counterOfTokens
  rw [count_foldl_tokens]
  simp [Counter.count]

/-- `counterAdd` raises the merge weight like the count. -/
theorem countWeight_counterAdd (c : Counter) (k : String) (n : Nat) (w : String) :
    countWeight (counterAdd c k n) w =
      countWeight c w + (if w = k then n else 0) := by
  induction c with
  | nil => simp [counterAdd, countWeight]
  | cons kv tail ih =>
    obtain ⟨k2, m⟩ := kv
    by_cases hk : k = k2
    · subst hk
      by_cases hw : w = k
      · simp [counterAdd, countWeight, hw]
        omega
      · simp [counterAdd, countWeight, hw]
    · simp only [counterAdd, if_neg hk, countWeight, List.map_cons, List.sum_cons]
      simp only [countWeight] at ih
      rw [ih]
      omega

/-- Weight analogue of `count_foldl_tokens`. -/
theorem countWeight_foldl_tokens (l : List String) (c : Counter) (w : String) :
    countWeight (l.foldl (fun acc t => counterAdd acc t 1) c) w =
      countWeight c w + countTok l w := by
  induction l generalizing c with
  | nil => simp [countTok]
  | cons t tail ih =>
    simp only [List.foldl_cons, countTok, List.map_cons, List.sum_cons]
    rw [ih, countWeight_counterAdd]
    simp only [countTok]
    omega

/-- The weight of a counted token list is its number of occurrences. -/
theorem countWeight_counterOfTokens (l : List String) (w : String) :
    countWeight (counterOfTokens l) w = countTok l w := by
  unfold counterOfTokens
  rw [countWeight_foldl_tokens]
  simp [countWeight]

/-- On tables produced by `analyze_text` the merge weight and the count
agree (such tables have no duplicate keys). -/
theorem countWeight_analyze (text : String) (w : String) :
    countWeight (analyze_text text) w = Counter.count (analyze_text text) w := by
  simp only [analyze_text]
  rw [countWeight_counterOfTokens, count_counterOfTokens]

/-- A missing or caught-corrupt cache entry makes `load_from_cache`
return the empty table with the miss flag, raising nothing. -/
theorem load_miss_eq (category : String) (cache : CacheMap)
    (h : cache (get_cache_path category) = none ∨
         cache (get_cache_path category) = some CacheEntry.corrupt) :
    load_from_cache category cache = .ok ([], false) := by
  unfold load_from_cache
  rcases h with h | h
  · rw [h]
  · rw [h]

/-- When every fetch succeeds, the page loop merges every analyzed page
table into the accumulator, making one call per page. -/
theorem process_pages_ok (content : String → Except PyError String)
    (f : String → String) (pages : List String) (wc : Counter)
    (hc : ∀ p ∈ pages, content p = .ok (f p)) :
    process_pages content pages wc =
      (.ok (pages.foldl (fun acc p => Counter.update acc (analyze_text (f p))) wc),
       pages.length) := by
  induction pages generalizing wc with
  | nil => rfl
  | cons title rest ih =>
    have h1 : content title = .ok (f title) := hc title (List.mem_cons_self _ _)
    simp only [process_pages, h1, List.foldl_cons, List.length_cons]
    rw [ih _ fun p hp => hc p (List.mem_cons_of_mem _ hp)]

/-- When some fetch in the list fails, the page loop raises an error. -/
theorem process_pages_error_of_mem (content : String → Except PyError String)
    (pages : List String) (wc : Counter)
    (h : ∃ p ∈ pages, ∃ e, content p = .error e) :
    ∃ e n, process_pages content pages wc = (.error e, n) := by
  induction pages generalizing wc with
  | nil => simp at h
  | cons title rest ih =>
    cases hc : content title with
    | error e => exact ⟨e, 1, by simp [process_pages, hc]⟩
    | ok text =>
      obtain ⟨p, hp, e, hpe⟩ := h
      rcases List.mem_cons.mp hp with rfl | hp2
      · rw [hc] at hpe
        exact absurd hpe (by simp)
      · obtain ⟨e2, n, hr⟩ := ih (Counter.update wc (analyze_text text)) ⟨p, hp2, e, hpe⟩
        exact ⟨e2, n + 1, by simp [process_pages, hc, hr]⟩

/-- Counts distribute over the fold of per-page merges. -/
theorem count_foldl_update (pages : List String) (f : String → String)
    (wc : Counter) (w : String) :
    Counter.count (pages.foldl (fun acc p => Counter.update acc (analyze_text (f p))) wc) w =
      Counter.count wc w +
        (pages.map fun p => Counter.count (analyze_text (f p)) w).sum := by
  induction pages generalizing wc with
  | nil => simp
  | cons title rest ih =>
    simp only [List.foldl_cons, List.map_cons, List.sum_cons]
    rw [ih, count_update, countWeight_analyze]
    omega

/-- The result of `analyze_category` does not depend on whether the cache
write succeeds. -/
theorem analyze_category_result_writeOk (category : String) (lr : List ApiResp)
    (ct : String → Except PyError String) (cm : CacheMap) (b1 b2 : Bool) :
    (analyze_category category ⟨lr, ct, cm, b1⟩).result =
      (analyze_category category ⟨lr, ct, cm, b2⟩).result := by
  simp only [analyze_category]
  rcases hl : load_from_cache category cm with e | ⟨wc0, used⟩
  · simp [hl]
  · cases used
    · rcases hr : (get_pages_in_category category lr).result with e | pages
      · simp [hl, hr]
      · rcases hp : (process_pages ct pages wc0).1 with e | wcr
        · simp [hl, hr, hp]
        · simp [hl, hr, hp]
    · simp [hl]

/-- On a successful pagination, the sleeps of the listing loop count the
consumed responses that carried a continuation token, and the requests
exceed the sleeps by exactly one. -/
theorem get_pages_loop_sleeps (resps : List ApiResp) (acc pages : List String)
    (h : (get_pages_loop resps acc).result = Except.ok pages) :
    (get_pages_loop resps acc).sleeps =
      (resps.take (get_pages_loop resps acc).requests).countP hasCont ∧
    (get_pages_loop resps acc).requests = (get_pages_loop resps acc).sleeps + 1 := by
  induction resps generalizing acc pages with
  | nil => simp [get_pages_loop] at h
  | cons r rest ih =>
    cases r with
    | fail => simp [get_pages_loop] at h
    | ok members cont =>
      cases cont with
      | none => simp [get_pages_loop, hasCont]
      | some tok =>
        have h2 : (get_pages_loop rest (acc ++ members)).result = Except.ok pages := by
          simpa [get_pages_loop] using h
        obtain ⟨ih1, ih2⟩ := ih (acc ++ members) pages h2
        refine ⟨?_, ?_⟩
        · simp only [get_pages_loop, List.take_succ_cons, List.countP_cons]
          simp [hasCont, ih1]
        · simp only [get_pages_loop]
          omega

/-- Membership in an insertion. -/
theorem mem_insertDesc (x a : String × Nat) (l : List (String × Nat)) :
    a ∈ insertDesc x l ↔ a = x ∨ a ∈ l := by
  induction l with
  | nil => simp [insertDesc]
  | cons y rest ih =>
    by_cases h : y.2 > x.2
    · simp only [insertDesc, if_pos h, List.mem_cons, ih]
      tauto
    · simp only [insertDesc, if_neg h, List.mem_cons]

/-- Insertion preserves the descending-count invariant. -/
theorem pairwise_insertDesc (x : String × Nat) (l : List (String × Nat))
    (hl : l.Pairwise (fun a b => a.2 ≥ b.2)) :
    (insertDesc x l).Pairwise (fun a b => a.2 ≥ b.2) := by
  induction l with
  | nil => simp [insertDesc]
  | cons y rest ih =>
    rcases List.pairwise_cons.mp hl with ⟨hy, hrest⟩
    by_cases h : y.2 > x.2
    · simp only [insertDesc, if_pos h]
      refine List.pairwise_cons.mpr ⟨?_, ih hrest⟩
      intro b hb
      rcases (mem_insertDesc x b rest).mp hb with rfl | hb2
      · omega
      · exact hy b hb2
    · simp only [insertDesc, if_neg h]
      refine List.pairwise_cons.mpr ⟨?_, List.pairwise_cons.mpr ⟨hy, hrest⟩⟩
      intro b hb
      rcases List.mem_cons.mp hb with rfl | hb2
      · omega
      · have := hy b hb2
        omega

/-- The sort is descending by count. -/
theorem sortDesc_pairwise (l : List (String × Nat)) :
    (sortDesc l).Pairwise (fun a b => a.2 ≥ b.2) := by
  induction l with
  | nil => simp [sortDesc]
  | cons x rest ih => exact pairwise_insertDesc x _ ih

/-- Inserting an element either prepends it to, or leaves unchanged, the
sublist of entries of any given count. -/
theorem filter_insertDesc (x : String × Nat) (l : List (String × Nat)) (v : Nat) :
    (insertDesc x l).filter (fun y => y.2 == v) =
      if x.2 = v then x :: l.filter (fun y => y.2 == v)
      else l.filter (fun y => y.2 == v) := by
  induction l with
  | nil =>
    by_cases hx : x.2 = v <;> simp [insertDesc, hx]
  | cons y rest ih =>
    by_cases h : y.2 > x.2
    · rw [show insertDesc x (y :: rest) = y :: insertDesc x rest from by
        simp [insertDesc, h]]
      by_cases hx : x.2 = v
      · have hy : ¬(y.2 = v) := by omega
        simp [List.filter_cons, hx, hy, ih]
      · by_cases hy : y.2 = v <;> simp [List.filter_cons, hx, hy, ih]
    · rw [show insertDesc x (y :: rest) = x :: y :: rest from by
        simp [insertDesc, h]]
      by_cases hx : x.2 = v <;> by_cases hy : y.2 = v <;>
        simp [List.filter_cons, hx, hy]

/-- Stability of the sort: entries of each count value keep their
original (first-seen) relative order. -/
theorem sortDesc_filter (l : List (String × Nat)) (v : Nat) :
    (sortDesc l).filter (fun y => y.2 == v) = l.filter (fun y => y.2 == v) := by
  induction l with
  | nil => rfl
  | cons x rest ih =>
    have hs : sortDesc (x :: rest) = insertDesc x (sortDesc rest) := rfl
    rw [hs, filter_insertDesc]
    by_cases hx : x.2 = v <;> simp [List.filter_cons, hx, ih]

/-- Every palette in a table of 6-color palettes, and the default, has 6
colors after lookup. -/
theorem palette_len_aux (d : List (String × ColorPalette)) (k : String)
    (dflt : ColorPalette)
    (hd : ∀ kv ∈ d, kv.2.colors.length = 6) (h0 : dflt.colors.length = 6) :
    (dictGet d k dflt).colors.length = 6 := by
  induction d with
  | nil => exact h0
  | cons kv rest ih =>
    obtain ⟨k2, v⟩ := kv
    by_cases hk : k = k2
    · simpa [dictGet, hk] using hd (k2, v) (List.mem_cons_self _ _)
    · simp only [dictGet, if_neg hk]
      exact ih fun kv2 h2 => hd kv2 (List.mem_cons_of_mem _ h2)

/-! ## Claim theorems -/

/-- C1 (counterexample): the cache key function hashes the raw category
name, so the key for "Foo" differs from the key for "Category:Foo" — the
claimed key equality under namespace normalization fails. -/
theorem cache_key_normalization_counterexample :
    get_cache_path "Foo" ≠ get_cache_path "Category:Foo" := by decide

/-- C1 (amended): cache keys are MD5 digests of the raw, un-normalized
category name: the key for "Foo" differs from the key for its normalized
form, and the three distinct raw names "Foo", "Category:Foo",
"Category:Bar" get pairwise distinct keys. -/
theorem cache_key_raw_name :
    get_cache_path "Foo" ≠ get_cache_path (normalizeCategory "Foo") ∧
    get_cache_path "Category:Foo" ≠ get_cache_path "Category:Bar" ∧
    get_cache_path "Foo" ≠ get_cache_path "Category:Bar" := by
  refine ⟨?_, ?_, ?_⟩ <;> decide

/-- C2 (code bug): at the failing input "hello ... world" the table
returned by `analyze_text` contains the punctuation-only key "...": the
Python test `word not in string.punctuation` is a substring test, which
multi-character punctuation tokens such as the ellipsis pass. -/
theorem analyze_text_punctuation_leak :
    Counter.count (analyze_text "hello ... world") "..." = 1 ∧
    allPunctChars "..." = true ∧
    strMem "..." string_punctuation = false := by
  refine ⟨by decide, by decide, by decide⟩

/-- C3: when the cache has no usable entry and either the listing fails
or some page fetch fails, `analyze_category` propagates a retrieval
error and the cache is left unchanged — no entry is written. -/
theorem analyze_category_failure_no_cache_write (category : String) (env : Env)
    (hm : env.cache (get_cache_path category) = none ∨
          env.cache (get_cache_path category) = some CacheEntry.corrupt)
    (hfail : (∃ e, (get_pages_in_category category env.listResps).result =
                Except.error e) ∨
        ∃ pages, (get_pages_in_category category env.listResps).result =
                Except.ok pages ∧ ∃ p ∈ pages, ∃ e, env.content p = Except.error e) :
    (∃ e, (analyze_category category env).result = Except.error e) ∧
      (analyze_category category env).cache = env.cache := by
  have hlc := load_miss_eq category env.cache hm
  rcases hfail with ⟨e, hr⟩ | ⟨pages, hr, hp⟩
  · exact ⟨⟨e, by simp [analyze_category, hlc, hr]⟩,
      by simp [analyze_category, hlc, hr]⟩
  · obtain ⟨e2, n, hpp⟩ := process_pages_error_of_mem env.content pages [] hp
    exact ⟨⟨e2, by simp [analyze_category, hlc, hr, hpp]⟩,
      by simp [analyze_category, hlc, hr, hpp]⟩

/-- C3 witness: in the concrete world whose first listing response fails,
the analysis errors and the (empty) cache is unchanged. -/
theorem analyze_category_failure_no_cache_write_witness :
    (∃ e, (analyze_category "Foo" envFail).result = Except.error e) ∧
      (analyze_category "Foo" envFail).cache = envFail.cache :=
  analyze_category_failure_no_cache_write "Foo" envFail (Or.inl rfl)
    (Or.inl ⟨PyError.netError, rfl⟩)

/-- C4: with a warm, well-formed cache entry, `analyze_category` returns
the cached table unchanged, makes zero remote API calls, leaves the cache
as it is, and an immediately repeated call returns the identical result. -/
theorem analyze_category_cache_hit (category : String) (env : Env) (t : Counter)
    (h : env.cache (get_cache_path category) = some (CacheEntry.ok t)) :
    analyze_category category env = ⟨.ok t, env.cache, 0⟩ ∧
      analyze_category category
          { env with cache := (analyze_category category env).cache } =
        analyze_category category env := by
  have h1 : analyze_category category env = ⟨.ok t, env.cache, 0⟩ := by
    unfold analyze_category load_from_cache
    rw [h]
    rfl
  refine ⟨h1, ?_⟩
  rw [h1]
  exact h1

/-- C4 witness: in the concrete warm-cache world the cached table
`dog ↦ 2` is returned with zero API calls, twice identically. -/
theorem analyze_category_cache_hit_witness :
    analyze_category "Foo" envHit = ⟨.ok [("dog", 2)], envHit.cache, 0⟩ ∧
      analyze_category "Foo"
          { envHit with cache := (analyze_category "Foo" envHit).cache } =
        analyze_category "Foo" envHit :=
  analyze_category_cache_hit "Foo" envHit [("dog", 2)] rfl

/-- C5: on a cache miss with successful listing and fetches, the
aggregated table assigns to each word the sum over the pages of that
word count in the per-page analyzed tables. -/
theorem analyze_category_additive_merge (category : String) (env : Env)
    (pages : List String) (f : String → String)
    (hm : env.cache (get_cache_path category) = none ∨
          env.cache (get_cache_path category) = some CacheEntry.corrupt)
    (hl : (get_pages_in_category category env.listResps).result = Except.ok pages)
    (hc : ∀ p ∈ pages, env.content p = Except.ok (f p)) (w : String) :
    ∃ wc, (analyze_category category env).result = Except.ok wc ∧
      Counter.count wc w =
        (pages.map fun p => Counter.count (analyze_text (f p)) w).sum := by
  have hlc := load_miss_eq category env.cache hm
  have hpp := process_pages_ok env.content f pages [] hc
  refine ⟨List.foldl (fun acc p => Counter.update acc (analyze_text (f p))) [] pages,
    ?_, ?_⟩
  · simp [analyze_category, hlc, hl, hpp]
  · rw [count_foldl_update]
    simp [Counter.count]

/-- C5 witness: in the concrete two-page world the aggregate count of
"dog" equals the sum of the two per-page counts. -/
theorem analyze_category_additive_merge_witness :
    ∃ wc, (analyze_category "Foo" envTwoPages).result = Except.ok wc ∧
      Counter.count wc "dog" =
        ((["P1", "P2"] : List String).map fun p =>
          Counter.count (analyze_text ((fun _ => "dog dog ran") p)) "dog").sum :=
  analyze_category_additive_merge "Foo" envTwoPages ["P1", "P2"]
    (fun _ => "dog dog ran") (Or.inl rfl) rfl (fun _ _ => rfl) "dog"

/-- C6 (counterexample): a corrupt cache file is not always swallowed —
an entry whose read raises `UnicodeDecodeError` (invalid UTF-8 bytes) or
`TypeError` (non-iterable JSON scalar) escapes the
`except (json.JSONDecodeError, IOError)` clause, so at the concrete
category "Foo" `load_from_cache` raises to the caller instead of
returning the empty table with the miss flag. -/
theorem load_from_cache_undecodable_raises :
    load_from_cache "Foo" undecodableCache = Except.error PyError.decodeError :=
  rfl

/-- C6 (amended): when the cache file is missing, or corrupt in a way
that raises `json.JSONDecodeError` or `IOError` (malformed JSON,
unreadable file), `load_from_cache` returns the empty table and the miss
flag without raising — such corruption is swallowed and treated as a
cache miss; corruption raising any other exception escapes. -/
theorem load_from_cache_miss_or_corrupt (category : String) (cache : CacheMap)
    (h : cache (get_cache_path category) = none ∨
         cache (get_cache_path category) = some CacheEntry.corrupt) :
    load_from_cache category cache = .ok ([], false) :=
  load_miss_eq category cache h

/-- C6 witness: loading from an all-caught-corrupt cache yields the empty
table and the miss flag, without an error. -/
theorem load_from_cache_miss_or_corrupt_witness :
    load_from_cache "Foo" corruptCache = .ok ([], false) :=
  load_from_cache_miss_or_corrupt "Foo" corruptCache (Or.inr rfl)

/-- C7: a failed cache write is non-fatal: the table (or error) returned
by `analyze_category` is the same whether the save succeeds or fails. -/
theorem analyze_category_save_failure_nonfatal (category : String) (env : Env) :
    (analyze_category category { env with writeOk := false }).result =
      (analyze_category category { env with writeOk := true }).result :=
  analyze_category_result_writeOk category env.listResps env.content env.cache
    false true

/-- C8: `most_common` output is sorted by descending count, the
underlying stable sort preserves the first-seen order of equal counts
(the sublist of each count value is unchanged), and on counts a:5, b:5,
c:1 the top 2 are a then b with size 5, never c. -/
theorem most_common_spec (c : Counter) (n : Nat) :
    (Counter.most_common c n).Pairwise (fun a b => a.2 ≥ b.2) ∧
    (∀ v, (sortDesc c).filter (fun y => y.2 == v) =
      c.filter (fun y => y.2 == v)) ∧
    Counter.most_common [("a", 5), ("b", 5), ("c", 1)] 2 = [("a", 5), ("b", 5)] := by
  refine ⟨?_, fun v => sortDesc_filter c v, by decide⟩
  exact (sortDesc_pairwise c).sublist (List.take_sublist n (sortDesc c))

/-- C9: during listing, exactly one rate-limit sleep happens per consumed
response that carries a continuation token, and the number of requests
exceeds the number of sleeps by one, so no sleep follows the final page. -/
theorem pagination_sleep_spec (category : String) (resps : List ApiResp)
    (pages : List String)
    (h : (get_pages_in_category category resps).result = Except.ok pages) :
    (get_pages_in_category category resps).sleeps =
      (resps.take (get_pages_in_category category resps).requests).countP hasCont ∧
    (get_pages_in_category category resps).requests =
      (get_pages_in_category category resps).sleeps + 1 :=
  get_pages_loop_sleeps resps [] pages h

/-- C9 witness: the concrete two-response pagination sleeps once for its
two requests. -/
theorem pagination_sleep_spec_witness :
    (get_pages_in_category "Foo" paginatedResps).sleeps =
      (paginatedResps.take
        (get_pages_in_category "Foo" paginatedResps).requests).countP hasCont ∧
    (get_pages_in_category "Foo" paginatedResps).requests =
      (get_pages_in_category "Foo" paginatedResps).sleeps + 1 :=
  pagination_sleep_spec "Foo" paginatedResps ["A", "B"] rfl

/-- C10: every palette produced by `get_palette` has exactly 6 colors,
indexing wraps modulo 6, and `get_color` never fails for any index, so
coloring any number of top words is always in range. -/
theorem get_color_always_in_range (name : String) (i : Nat) :
    (get_palette name).colors.length = 6 ∧
    ColorPalette.get_color (get_palette name) i =
      (get_palette name).colors[i % 6]? ∧
    (ColorPalette.get_color (get_palette name) i).isSome = true := by
  have h6 : (get_palette name).colors.length = 6 := by
    apply palette_len_aux
    · decide
    · rfl
  refine ⟨h6, ?_, ?_⟩
  · unfold ColorPalette.get_color
    rw [h6]
  · unfold ColorPalette.get_color
    have hlt : i % (get_palette name).colors.length <
        (get_palette name).colors.length := by
      rw [h6]
      exact Nat.mod_lt _ (by norm_num)
    rw [List.getElem?_eq_getElem hlt]
    rfl

end WikiAnalysis
